import Mathlib

/-!
Shallow embedding of the fixed-rate reward accrual engine from
`src/programs/gem_farm/src/state/fixed_rewards_OLD.rs`.

All machine integers are `u64`: modelled as `Nat` together with
checked arithmetic (`try_add`, `try_sub`, `try_mul`) that fails with an
arithmetic error instead of wrapping, exactly as the source's
`try_add`/`try_sub`/`try_mul` helpers do.  Functions in the source
returning `Result<T, ProgramError>` become `Except ErrorCode T`; the
`?` operator becomes the `onOk` combinator below.  Functions taking
`&mut` arguments return the (possibly partially) updated values as
extra components of the result, including on the error path, so that
the source's in-place mutation ordering is preserved.
-/

/-- Error codes of the engine.  `arithmeticOverflow` / `arithmeticUnderflow`
come from the checked u64 helpers; `rewardUnderfunded` and
`notAllGemsWhole` are the two business errors raised in the source;
`invariantViolation` models a failed `assert!` (a panic in Rust: the
call does not return normally). -/
inductive ErrorCode : Type where
  | arithmeticOverflow
  | arithmeticUnderflow
  | rewardUnderfunded
  | notAllGemsWhole
  | invariantViolation
deriving DecidableEq, Repr

/-- Rust's `?` operator: on `.ok a` continue with `f a`, on `.error e`
return `err e` (for a plain `Result`-returning function `err` is
`.error`; for a function mutating `&mut` state, `err` also carries the
state as mutated so far). -/
def onOk {α β : Type} (x : Except ErrorCode α) (err : ErrorCode → β) (f : α → β) : β :=
  match x with
  | .error e => err e
  | .ok a => f a

theorem onOk_ok {α β : Type} (a : α) (err : ErrorCode → β) (f : α → β) :
    onOk (.ok a) err f = f a := rfl

theorem onOk_error {α β : Type} (e : ErrorCode) (err : ErrorCode → β) (f : α → β) :
    onOk (.error e) err f = err e := rfl

/-- One past the largest `u64` value. -/
def U64_LIMIT : Nat := 2 ^ 64

/-- Checked u64 addition: fails on overflow. -/
def try_add (a b : Nat) : Except ErrorCode Nat :=
  if a + b < U64_LIMIT then .ok (a + b) else .error .arithmeticOverflow

/-- Checked u64 subtraction: fails on underflow. -/
def try_sub (a b : Nat) : Except ErrorCode Nat :=
  if b ≤ a then .ok (a - b) else .error .arithmeticUnderflow

/-- Checked u64 multiplication: fails on overflow. -/
def try_mul (a b : Nat) : Except ErrorCode Nat :=
  if a * b < U64_LIMIT then .ok (a * b) else .error .arithmeticOverflow

/-- Source `PeriodConfig`: one constant-rate segment (tokens per second, duration
in seconds). -/
structure PeriodConfig : Type where
  rate : Nat
  duration_sec : Nat
deriving DecidableEq, Repr

/-- Source `FixedRateConfig`: mandatory first period, optional second and third,
plus the snapshot of the gem count the funding was sized for. -/
structure FixedRateConfig : Type where
  period_1 : PeriodConfig
  period_2 : Option PeriodConfig
  period_3 : Option PeriodConfig
  gems_funded : Nat
deriving DecidableEq, Repr

/-- Source `FixedRateConfig::max_duration`: sum of configured period durations,
an absent period contributing 0. -/
def FixedRateConfig.max_duration (c : FixedRateConfig) : Except ErrorCode Nat :=
  let period_1_duration := c.period_1.duration_sec
  let period_2_duration :=
    match c.period_2 with
    | some config => config.duration_sec
    | none => 0
  let period_3_duration :=
    match c.period_3 with
    | some config => config.duration_sec
    | none => 0
  onOk (try_add period_1_duration period_2_duration) .error fun s =>
  try_add s period_3_duration

/-- Source `FixedRateConfig::max_reward_per_gem`: sum of `rate * duration` over
configured periods, an absent period contributing 0. -/
def FixedRateConfig.max_reward_per_gem (c : FixedRateConfig) : Except ErrorCode Nat :=
  onOk (try_mul c.period_1.rate c.period_1.duration_sec) .error fun p1_reward =>
  onOk (match c.period_2 with
        | some config => try_mul config.rate config.duration_sec
        | none => .ok 0) .error fun p2_reward =>
  onOk (match c.period_3 with
        | some config => try_mul config.rate config.duration_sec
        | none => .ok 0) .error fun p3_reward =>
  onOk (try_add p1_reward p2_reward) .error fun s =>
  try_add s p3_reward

/-- Source `FixedRateConfig::accrued_reward_per_gem`: piecewise accrual.  Period 1
consumes up to its duration of `duration`; the remainder goes to period 2,
then period 3 (here `pd2`/`pd3` bundle each optional period's consumed
duration and reward, the source's mutable `p2_duration`/`p2_reward`
pairs).  Ends with the source's two `assert!` post-conditions (accrued
duration ≤ max duration, accrued reward ≤ max reward). -/
def FixedRateConfig.accrued_reward_per_gem (c : FixedRateConfig) (duration : Nat) :
    Except ErrorCode Nat :=
  let p1_duration := min c.period_1.duration_sec duration
  onOk (try_mul c.period_1.rate p1_duration) .error fun p1_reward =>
  onOk (match c.period_2 with
        | some config =>
          onOk (try_sub duration p1_duration) .error fun rem =>
          onOk (try_mul config.rate (min config.duration_sec rem)) .error fun r =>
          .ok (min config.duration_sec rem, r)
        | none => Except.ok ((0 : Nat), (0 : Nat))) .error fun pd2 =>
  onOk (match c.period_3 with
        | some config =>
          onOk (try_sub duration p1_duration) .error fun rem1 =>
          onOk (try_sub rem1 pd2.1) .error fun rem2 =>
          onOk (try_mul config.rate (min config.duration_sec rem2)) .error fun r =>
          .ok (min config.duration_sec rem2, r)
        | none => Except.ok ((0 : Nat), (0 : Nat))) .error fun pd3 =>
  onOk (try_add p1_duration pd2.1) .error fun s12 =>
  onOk (try_add s12 pd3.1) .error fun accrued_duration =>
  onOk (try_add p1_reward pd2.2) .error fun r12 =>
  onOk (try_add r12 pd3.2) .error fun acc =>
  onOk c.max_duration .error fun maxd =>
  if accrued_duration ≤ maxd then
    onOk c.max_reward_per_gem .error fun maxr =>
    if acc ≤ maxr then .ok acc
    else .error .invariantViolation
  else .error .invariantViolation

/-- Source `FixedRateConfig::remaining_reward_per_gem`:
`max_reward_per_gem - accrued_reward_per_gem(passed_duration)`. -/
def FixedRateConfig.remaining_reward_per_gem (c : FixedRateConfig) (passed_duration : Nat) :
    Except ErrorCode Nat :=
  onOk c.max_reward_per_gem .error fun maxr =>
  onOk (c.accrued_reward_per_gem passed_duration) .error fun acc =>
  try_sub maxr acc

/-- Source `FixedRateConfig::remaining_required_funding`:
`remaining_reward_per_gem(passed_duration) * gems_funded`. -/
def FixedRateConfig.remaining_required_funding (c : FixedRateConfig) (passed_duration : Nat) :
    Except ErrorCode Nat :=
  onOk (c.remaining_reward_per_gem passed_duration) .error fun r =>
  try_mul r c.gems_funded

/-- Source `FixedRateConfig::required_funding`: `max_reward_per_gem * gems_funded`. -/
def FixedRateConfig.required_funding (c : FixedRateConfig) : Except ErrorCode Nat :=
  onOk c.max_reward_per_gem .error fun maxr =>
  try_mul maxr c.gems_funded

/-- Modelled from the spec: the `TimeTracker` external collaborator
(called TimeWindow in the spec) is not under `src/`; the spec lists its
mutable fields `duration`, `rewardEndTs`, `lockEndTs`. -/
structure TimeTracker : Type where
  duration_sec : Nat
  reward_end_ts : Nat
  lock_end_ts : Nat
deriving DecidableEq, Repr

/-- Modelled from the spec: `rewardUpperBound(now)` — the effective end of
the reward window as seen at `now`, i.e. the earlier of `now` and
`rewardEndTs` (a participant who began after it "began after the
effective reward window closed"). -/
def TimeTracker.reward_upper_bound (t : TimeTracker) (now_ts : Nat) : Nat :=
  min t.reward_end_ts now_ts

/-- Modelled from the spec: `rewardLowerBound(ts)` — the later of the
reward window's start (`rewardEndTs - duration`) and `ts`. -/
def TimeTracker.reward_lower_bound (t : TimeTracker) (ts : Nat) :
    Except ErrorCode Nat :=
  .ok (max (t.reward_end_ts - t.duration_sec) ts)

/-- Modelled from the spec: `passedDuration(now)` — how much of the
reward window has already passed at `now` (all of it once `now` reaches
`rewardEndTs`, none before the window starts). -/
def TimeTracker.passed_duration (t : TimeTracker) (now_ts : Nat) :
    Except ErrorCode Nat :=
  .ok (t.duration_sec - (t.reward_end_ts - now_ts))

/-- Modelled from the spec: `endReward(now)` — truncates the reward
window: if `now` is before `rewardEndTs`, the window now ends at `now`
and its duration shrinks by the amount cut off; otherwise nothing
changes. -/
def TimeTracker.end_reward (t : TimeTracker) (now_ts : Nat) :
    Except ErrorCode TimeTracker :=
  .ok (if now_ts < t.reward_end_ts then
        { t with duration_sec := t.duration_sec - (t.reward_end_ts - now_ts),
                 reward_end_ts := now_ts }
      else t)

/-- Modelled from the spec: the `FundsTracker` external collaborator
(called FundsLedger in the spec), with its increment-only accumulators
`totalFunded`, `totalRefunded`, `totalAccruedToStakers`. -/
structure FundsTracker : Type where
  total_funded : Nat
  total_refunded : Nat
  total_accrued_to_stakers : Nat
deriving DecidableEq, Repr

/-- Modelled from the spec: `pendingAmount()` — funding committed but
neither refunded nor accrued to stakers:
`totalFunded - totalRefunded - totalAccruedToStakers`, checked. -/
def FundsTracker.pending_amount (f : FundsTracker) : Except ErrorCode Nat :=
  onOk (try_sub f.total_funded f.total_refunded) .error fun s =>
  try_sub s f.total_accrued_to_stakers

/-- Modelled from the spec: the fixed-rate part of the per-farmer
`ParticipantRecord`: `accruedThisStakingCycle` and the `whole` flag. -/
structure FarmerFixedRateReward : Type where
  accrued_this_staking_cycle : Nat
  whole : Bool
deriving DecidableEq, Repr

/-- Modelled from the spec: reads the `whole` flag. -/
def FarmerFixedRateReward.is_whole (r : FarmerFixedRateReward) : Bool :=
  r.whole

/-- Modelled from the spec: sets the `whole` flag. -/
def FarmerFixedRateReward.mark_whole (r : FarmerFixedRateReward) : FarmerFixedRateReward :=
  { r with whole := true }

/-- Modelled from the spec: the per-farmer `ParticipantRecord`, with the
lifetime total `accruedReward` and the fixed-rate cycle tracker. -/
structure FarmerReward : Type where
  accrued_reward : Nat
  fixed_rate : FarmerFixedRateReward
deriving DecidableEq, Repr

/-- Source `FixedRateReward`: the aggregate — active config, monotonically
growing count of participating gems, and count of gems made whole. -/
structure FixedRateReward : Type where
  config : FixedRateConfig
  gems_participating : Nat
  gems_made_whole : Nat
deriving DecidableEq, Repr

/-- Source `FixedRateReward::lock_reward`.  `times` and `funds` are `&mut` in the
source; the returned pair carries their values after the call (unchanged
on every error path, since the only write happens after all checks). -/
def FixedRateReward.lock_reward (self : FixedRateReward) (now_ts : Nat)
    (times : TimeTracker) (funds : FundsTracker) :
    Except ErrorCode Unit × TimeTracker × FundsTracker :=
  onOk (times.passed_duration now_ts)
      (fun e => (.error e, times, funds)) fun passed_duration =>
  onOk funds.pending_amount
      (fun e => (.error e, times, funds)) fun pending =>
  onOk (self.config.remaining_required_funding passed_duration)
      (fun e => (.error e, times, funds)) fun required =>
  if pending < required then (.error .rewardUnderfunded, times, funds)
  else (.ok (), { times with lock_end_ts := times.reward_end_ts }, funds)

/-- Source `FixedRateReward::fund_reward`.  Mirrors the source's write order:
`times.duration_sec` is assigned before `now_ts.try_add(new_amount)` is
evaluated, so an overflow there leaves that first write behind.  Note the
source computes the recorded amount as `new_config.max_duration()` (its
second call), not from the reward obligation. -/
def FixedRateReward.fund_reward (self : FixedRateReward) (now_ts : Nat)
    (times : TimeTracker) (funds : FundsTracker) (new_config : FixedRateConfig) :
    Except ErrorCode Unit × FixedRateReward × TimeTracker × FundsTracker :=
  onOk new_config.max_duration
      (fun e => (.error e, self, times, funds)) fun new_duration =>
  onOk new_config.max_duration
      (fun e => (.error e, self, times, funds)) fun new_amount =>
  let times1 := { times with duration_sec := new_duration }
  onOk (try_add now_ts new_amount)
      (fun e => (.error e, self, times1, funds)) fun end_ts =>
  let times2 := { times1 with reward_end_ts := end_ts }
  onOk (try_add funds.total_funded new_amount)
      (fun e => (.error e, self, times2, funds)) fun tf =>
  (.ok (), { self with config := new_config }, times2,
   { funds with total_funded := tf })

/-- Source `FixedRateReward::cancel_reward`.  On success returns the refund
amount; mirrors the source's order: whole-gate, then
`times.end_reward(now_ts)`, then `pending_amount`, then the
`total_refunded` increment. -/
def FixedRateReward.cancel_reward (self : FixedRateReward) (now_ts : Nat)
    (times : TimeTracker) (funds : FundsTracker) :
    Except ErrorCode Nat × FixedRateReward × TimeTracker × FundsTracker :=
  if self.gems_made_whole < self.gems_participating then
    (.error .notAllGemsWhole, self, times, funds)
  else
    onOk (times.end_reward now_ts)
        (fun e => (.error e, self, times, funds)) fun times1 =>
    onOk funds.pending_amount
        (fun e => (.error e, self, times1, funds)) fun refund_amount =>
    onOk (try_add funds.total_refunded refund_amount)
        (fun e => (.error e, self, times1, funds)) fun tr =>
    (.ok refund_amount, self, times1, { funds with total_refunded := tr })

/-- Source `FixedRateReward::update_accrued_reward`.  Mirrors the source's write
order exactly: the cycle tracker is incremented before the lifetime
total, which is incremented before the farm total; the farmer is marked
whole before `gems_made_whole` is incremented.  An error part-way leaves
the earlier writes behind, as the `&mut` mutation in the source does. -/
def FixedRateReward.update_accrued_reward (self : FixedRateReward) (now_ts : Nat)
    (funds : FundsTracker) (times : TimeTracker)
    (farmer_gems_staked farmer_begin_staking_ts : Nat)
    (farmer_reward : FarmerReward) :
    Except ErrorCode Unit × FixedRateReward × FundsTracker × FarmerReward :=
  if farmer_reward.fixed_rate.is_whole then
    (.ok (), self, funds, farmer_reward)
  else if farmer_begin_staking_ts > times.reward_upper_bound now_ts then
    (.ok (), self, funds, farmer_reward)
  else
    onOk (times.reward_lower_bound farmer_begin_staking_ts)
        (fun e => (.error e, self, funds, farmer_reward)) fun reward_lower_bound =>
    onOk (try_sub (times.reward_upper_bound now_ts) reward_lower_bound)
        (fun e => (.error e, self, funds, farmer_reward)) fun staking_duration =>
    onOk (self.config.accrued_reward_per_gem staking_duration)
        (fun e => (.error e, self, funds, farmer_reward)) fun reward_per_gem =>
    onOk (try_mul reward_per_gem farmer_gems_staked)
        (fun e => (.error e, self, funds, farmer_reward)) fun cycle_total =>
    onOk (try_sub cycle_total farmer_reward.fixed_rate.accrued_this_staking_cycle)
        (fun e => (.error e, self, funds, farmer_reward)) fun newly_accured_reward =>
    onOk (try_add farmer_reward.fixed_rate.accrued_this_staking_cycle newly_accured_reward)
        (fun e => (.error e, self, funds, farmer_reward)) fun c1 =>
    let fr1 : FarmerReward := { farmer_reward with
      fixed_rate := { farmer_reward.fixed_rate with accrued_this_staking_cycle := c1 } }
    onOk (try_add fr1.accrued_reward newly_accured_reward)
        (fun e => (.error e, self, funds, fr1)) fun a1 =>
    let fr2 : FarmerReward := { fr1 with accrued_reward := a1 }
    onOk (try_add funds.total_accrued_to_stakers newly_accured_reward)
        (fun e => (.error e, self, funds, fr2)) fun t1 =>
    let funds1 : FundsTracker := { funds with total_accrued_to_stakers := t1 }
    if now_ts > times.reward_end_ts then
      let fr3 : FarmerReward := { fr2 with fixed_rate := fr2.fixed_rate.mark_whole }
      onOk (try_add self.gems_made_whole farmer_gems_staked)
          (fun e => (.error e, self, funds1, fr3)) fun gw =>
      (.ok (), { self with gems_made_whole := gw }, funds1, fr3)
    else
      (.ok (), self, funds1, fr2)

/-! ## Spec-side abstractions and validity -/

/-- An absent optional period contributes zero duration and zero reward;
this default makes the piecewise formulas uniform. -/
def periodOrDefault (p : Option PeriodConfig) : PeriodConfig :=
  p.getD { rate := 0, duration_sec := 0 }

/-- Total configured duration, as a plain number. -/
def maxDurationSpec (c : FixedRateConfig) : Nat :=
  c.period_1.duration_sec + (periodOrDefault c.period_2).duration_sec
    + (periodOrDefault c.period_3).duration_sec

/-- Total reward per gem, as a plain number. -/
def maxRewardPerGemSpec (c : FixedRateConfig) : Nat :=
  c.period_1.rate * c.period_1.duration_sec
    + (periodOrDefault c.period_2).rate * (periodOrDefault c.period_2).duration_sec
    + (periodOrDefault c.period_3).rate * (periodOrDefault c.period_3).duration_sec

/-- The spec's piecewise integral: `elapsed` is consumed against period 1
up to its duration, the remainder against period 2, then period 3. -/
def accruedRewardPerGemSpec (c : FixedRateConfig) (d : Nat) : Nat :=
  let p1 := c.period_1
  let p2 := periodOrDefault c.period_2
  let p3 := periodOrDefault c.period_3
  p1.rate * min p1.duration_sec d
    + p2.rate * min p2.duration_sec (d - p1.duration_sec)
    + p3.rate * min p3.duration_sec (d - p1.duration_sec - p2.duration_sec)

/-- A config with valid (non-overflowing) periods: the total duration and
the total reward per gem both fit in a u64 (hence so does every
intermediate sum and product). -/
def ValidConfig (c : FixedRateConfig) : Prop :=
  maxDurationSpec c < U64_LIMIT ∧ maxRewardPerGemSpec c < U64_LIMIT

instance (c : FixedRateConfig) : Decidable (ValidConfig c) := by
  unfold ValidConfig; infer_instance

/-! ## Concrete inputs used by the test scenarios -/

/-- The spec's three-period concrete scenario:
`(rate 3, dur 3), (rate 4, dur 4), (rate 5, dur 5), gemsFunded = 100`. -/
def testConfig : FixedRateConfig :=
  { period_1 := { rate := 3, duration_sec := 3 },
    period_2 := some { rate := 4, duration_sec := 4 },
    period_3 := some { rate := 5, duration_sec := 5 },
    gems_funded := 100 }

/-- Single-period config `(rate 3, dur 3), gemsFunded = 100`: its total
reward obligation is 900 while its max duration is 3. -/
def singlePeriodConfig : FixedRateConfig :=
  { period_1 := { rate := 3, duration_sec := 3 },
    period_2 := none,
    period_3 := none,
    gems_funded := 100 }

/-- A config for exercising `update_accrued_reward`: one period,
rate 1 for 10 seconds, sized for 1 gem. -/
def smallConfig : FixedRateConfig :=
  { period_1 := { rate := 1, duration_sec := 10 },
    period_2 := none,
    period_3 := none,
    gems_funded := 1 }

/-- A participant whose lifetime total sits at the u64 maximum, so the
second write of `update_accrued_reward` overflows after the first write
(the cycle tracker) has already happened. -/
def nearMaxFarmer : FarmerReward :=
  { accrued_reward := 2 ^ 64 - 1,
    fixed_rate := { accrued_this_staking_cycle := 0, whole := false } }

/-! ## Helper lemmas about the checked arithmetic -/

theorem try_add_ok {a b : Nat} (h : a + b < U64_LIMIT) : try_add a b = .ok (a + b) := by
  simp [try_add, h]

theorem try_sub_ok {a b : Nat} (h : b ≤ a) : try_sub a b = .ok (a - b) := by
  simp [try_sub, h]

theorem try_mul_ok {a b : Nat} (h : a * b < U64_LIMIT) : try_mul a b = .ok (a * b) := by
  simp [try_mul, h]

theorem sub_min_self (d c : Nat) : d - min c d = d - c := by omega

/-- A checked three-way sum succeeds whenever the total fits. -/
theorem try_add_chain {a b c : Nat} (h : a + b + c < U64_LIMIT) :
    (onOk (try_add a b) Except.error fun s => try_add s c) = .ok (a + b + c) := by
  rw [try_add_ok (by omega), onOk_ok, try_add_ok h]

/-! ## Closed forms of the pure accrual math under validity -/

theorem max_duration_eq (c : FixedRateConfig) (h : ValidConfig c) :
    c.max_duration = .ok (maxDurationSpec c) := by
  obtain ⟨hd, _⟩ := h
  unfold maxDurationSpec periodOrDefault at hd ⊢
  cases hp2 : c.period_2 <;> cases hp3 : c.period_3
  all_goals
    simp only [hp2, hp3, Option.getD_some, Option.getD_none] at hd ⊢
    simp only [FixedRateConfig.max_duration, hp2, hp3]
    rw [try_add_chain hd]

theorem max_reward_per_gem_eq (c : FixedRateConfig) (h : ValidConfig c) :
    c.max_reward_per_gem = .ok (maxRewardPerGemSpec c) := by
  have hb1 : c.period_1.rate * c.period_1.duration_sec < U64_LIMIT := by
    have := h.2; unfold maxRewardPerGemSpec at this; omega
  have hb2 : (periodOrDefault c.period_2).rate * (periodOrDefault c.period_2).duration_sec
      < U64_LIMIT := by
    have := h.2; unfold maxRewardPerGemSpec at this; omega
  have hb3 : (periodOrDefault c.period_3).rate * (periodOrDefault c.period_3).duration_sec
      < U64_LIMIT := by
    have := h.2; unfold maxRewardPerGemSpec at this; omega
  have hr := h.2
  unfold maxRewardPerGemSpec periodOrDefault at hr ⊢
  cases hp2 : c.period_2 <;> cases hp3 : c.period_3
  all_goals
    simp only [hp2, hp3, Option.getD_some, Option.getD_none, periodOrDefault]
      at hr hb2 hb3 ⊢
    simp only [FixedRateConfig.max_reward_per_gem, hp2, hp3,
      try_mul_ok hb1, try_mul_ok hb2, try_mul_ok hb3, onOk_ok]
    rw [try_add_chain hr]

theorem try_sub_zero (a : Nat) : try_sub a 0 = .ok a := by
  simp [try_sub]

theorem accrued_reward_per_gem_eq (c : FixedRateConfig) (d : Nat) (h : ValidConfig c) :
    c.accrued_reward_per_gem d = .ok (accruedRewardPerGemSpec c d) := by
  have hm1 : c.period_1.rate * min c.period_1.duration_sec d < U64_LIMIT := by
    have h2 := h.2; unfold maxRewardPerGemSpec at h2
    have := mul_le_mul_left' (Nat.min_le_left c.period_1.duration_sec d) c.period_1.rate
    omega
  unfold accruedRewardPerGemSpec periodOrDefault
  cases hp2 : c.period_2 with
  | none =>
    cases hp3 : c.period_3 with
    | none =>
      have hA1 : min c.period_1.duration_sec d + 0 < U64_LIMIT := by
        have h1 := h.1; unfold maxDurationSpec at h1; omega
      have hR1 : c.period_1.rate * min c.period_1.duration_sec d + 0 < U64_LIMIT := by omega
      have hcond : min c.period_1.duration_sec d ≤ maxDurationSpec c := by
        unfold maxDurationSpec; omega
      have hcond2 : c.period_1.rate * min c.period_1.duration_sec d
          ≤ maxRewardPerGemSpec c := by
        have := mul_le_mul_left' (Nat.min_le_left c.period_1.duration_sec d) c.period_1.rate
        unfold maxRewardPerGemSpec; omega
      simp only [hp2, hp3, Option.getD_none]
      simp only [FixedRateConfig.accrued_reward_per_gem, hp2, hp3,
        try_mul_ok hm1, onOk_ok, try_add_ok hA1, try_add_ok hR1, add_zero,
        max_duration_eq c h, max_reward_per_gem_eq c h, hcond, hcond2, if_true,
        zero_mul, mul_zero]
    | some q3 =>
      have hm3 : q3.rate * min q3.duration_sec (d - c.period_1.duration_sec)
          < U64_LIMIT := by
        have h2 := h.2
        unfold maxRewardPerGemSpec periodOrDefault at h2
        rw [hp3] at h2
        simp only [Option.getD_some] at h2
        have := mul_le_mul_left'
          (Nat.min_le_left q3.duration_sec (d - c.period_1.duration_sec)) q3.rate
        omega
      have hA1 : min c.period_1.duration_sec d + 0 < U64_LIMIT := by
        have h1 := h.1; unfold maxDurationSpec at h1; omega
      have hA2 : min c.period_1.duration_sec d
          + min q3.duration_sec (d - c.period_1.duration_sec) < U64_LIMIT := by
        have h1 := h.1
        unfold maxDurationSpec periodOrDefault at h1
        rw [hp3] at h1
        simp only [Option.getD_some] at h1
        omega
      have hR1 : c.period_1.rate * min c.period_1.duration_sec d + 0 < U64_LIMIT := by omega
      have hR2 : c.period_1.rate * min c.period_1.duration_sec d
          + q3.rate * min q3.duration_sec (d - c.period_1.duration_sec) < U64_LIMIT := by
        have e1 := mul_le_mul_left' (Nat.min_le_left c.period_1.duration_sec d)
          c.period_1.rate
        have e3 := mul_le_mul_left'
          (Nat.min_le_left q3.duration_sec (d - c.period_1.duration_sec)) q3.rate
        have h2 := h.2
        unfold maxRewardPerGemSpec periodOrDefault at h2
        rw [hp3] at h2
        simp only [Option.getD_some] at h2
        omega
      have hcond : min c.period_1.duration_sec d
          + min q3.duration_sec (d - c.period_1.duration_sec) ≤ maxDurationSpec c := by
        unfold maxDurationSpec periodOrDefault
        rw [hp3]
        simp only [Option.getD_some]
        omega
      have hcond2 : c.period_1.rate * min c.period_1.duration_sec d
          + q3.rate * min q3.duration_sec (d - c.period_1.duration_sec)
          ≤ maxRewardPerGemSpec c := by
        have e1 := mul_le_mul_left' (Nat.min_le_left c.period_1.duration_sec d)
          c.period_1.rate
        have e3 := mul_le_mul_left'
          (Nat.min_le_left q3.duration_sec (d - c.period_1.duration_sec)) q3.rate
        unfold maxRewardPerGemSpec periodOrDefault
        rw [hp3]
        simp only [Option.getD_some]
        omega
      simp only [hp2, hp3, Option.getD_none, Option.getD_some]
      simp only [FixedRateConfig.accrued_reward_per_gem, hp2, hp3,
        try_mul_ok hm1, onOk_ok,
        try_sub_ok (Nat.min_le_right c.period_1.duration_sec d), sub_min_self,
        try_sub_zero, try_mul_ok hm3,
        try_add_ok hA1, try_add_ok hA2, try_add_ok hR1, try_add_ok hR2, add_zero,
        max_duration_eq c h, max_reward_per_gem_eq c h, hcond, hcond2, if_true,
        zero_mul, mul_zero, Nat.sub_zero]
  | some q2 =>
    cases hp3 : c.period_3 with
    | none =>
      have hm2 : q2.rate * min q2.duration_sec (d - c.period_1.duration_sec)
          < U64_LIMIT := by
        have h2 := h.2
        unfold maxRewardPerGemSpec periodOrDefault at h2
        rw [hp2] at h2
        simp only [Option.getD_some] at h2
        have := mul_le_mul_left'
          (Nat.min_le_left q2.duration_sec (d - c.period_1.duration_sec)) q2.rate
        omega
      have hA1 : min c.period_1.duration_sec d
          + min q2.duration_sec (d - c.period_1.duration_sec) < U64_LIMIT := by
        have h1 := h.1
        unfold maxDurationSpec periodOrDefault at h1
        rw [hp2] at h1
        simp only [Option.getD_some] at h1
        omega
      have hA2 : min c.period_1.duration_sec d
          + min q2.duration_sec (d - c.period_1.duration_sec) + 0 < U64_LIMIT := by omega
      have hR1 : c.period_1.rate * min c.period_1.duration_sec d
          + q2.rate * min q2.duration_sec (d - c.period_1.duration_sec) < U64_LIMIT := by
        have e1 := mul_le_mul_left' (Nat.min_le_left c.period_1.duration_sec d)
          c.period_1.rate
        have e2 := mul_le_mul_left'
          (Nat.min_le_left q2.duration_sec (d - c.period_1.duration_sec)) q2.rate
        have h2 := h.2
        unfold maxRewardPerGemSpec periodOrDefault at h2
        rw [hp2] at h2
        simp only [Option.getD_some] at h2
        omega
      have hR2 : c.period_1.rate * min c.period_1.duration_sec d
          + q2.rate * min q2.duration_sec (d - c.period_1.duration_sec) + 0
          < U64_LIMIT := by omega
      have hcond : min c.period_1.duration_sec d
          + min q2.duration_sec (d - c.period_1.duration_sec) ≤ maxDurationSpec c := by
        unfold maxDurationSpec periodOrDefault
        rw [hp2]
        simp only [Option.getD_some]
        omega
      have hcond2 : c.period_1.rate * min c.period_1.duration_sec d
          + q2.rate * min q2.duration_sec (d - c.period_1.duration_sec)
          ≤ maxRewardPerGemSpec c := by
        have e1 := mul_le_mul_left' (Nat.min_le_left c.period_1.duration_sec d)
          c.period_1.rate
        have e2 := mul_le_mul_left'
          (Nat.min_le_left q2.duration_sec (d - c.period_1.duration_sec)) q2.rate
        unfold maxRewardPerGemSpec periodOrDefault
        rw [hp2]
        simp only [Option.getD_some]
        omega
      simp only [hp2, hp3, Option.getD_none, Option.getD_some]
      simp only [FixedRateConfig.accrued_reward_per_gem, hp2, hp3,
        try_mul_ok hm1, onOk_ok,
        try_sub_ok (Nat.min_le_right c.period_1.duration_sec d), sub_min_self,
        try_mul_ok hm2,
        try_add_ok hA1, try_add_ok hA2, try_add_ok hR1, try_add_ok hR2, add_zero,
        max_duration_eq c h, max_reward_per_gem_eq c h, hcond, hcond2, if_true,
        zero_mul, mul_zero, Nat.sub_zero]
    | some q3 =>
      have hm2 : q2.rate * min q2.duration_sec (d - c.period_1.duration_sec)
          < U64_LIMIT := by
        have h2 := h.2
        unfold maxRewardPerGemSpec periodOrDefault at h2
        rw [hp2, hp3] at h2
        simp only [Option.getD_some] at h2
        have := mul_le_mul_left'
          (Nat.min_le_left q2.duration_sec (d - c.period_1.duration_sec)) q2.rate
        omega
      have hm3 : q3.rate
          * min q3.duration_sec (d - c.period_1.duration_sec - q2.duration_sec)
          < U64_LIMIT := by
        have h2 := h.2
        unfold maxRewardPerGemSpec periodOrDefault at h2
        rw [hp2, hp3] at h2
        simp only [Option.getD_some] at h2
        have := mul_le_mul_left' (Nat.min_le_left q3.duration_sec
          (d - c.period_1.duration_sec - q2.duration_sec)) q3.rate
        omega
      have hA1 : min c.period_1.duration_sec d
          + min q2.duration_sec (d - c.period_1.duration_sec) < U64_LIMIT := by
        have h1 := h.1
        unfold maxDurationSpec periodOrDefault at h1
        rw [hp2, hp3] at h1
        simp only [Option.getD_some] at h1
        omega
      have hA2 : min c.period_1.duration_sec d
          + min q2.duration_sec (d - c.period_1.duration_sec)
          + min q3.duration_sec (d - c.period_1.duration_sec - q2.duration_sec)
          < U64_LIMIT := by
        have h1 := h.1
        unfold maxDurationSpec periodOrDefault at h1
        rw [hp2, hp3] at h1
        simp only [Option.getD_some] at h1
        omega
      have e1 := mul_le_mul_left' (Nat.min_le_left c.period_1.duration_sec d)
        c.period_1.rate
      have e2 := mul_le_mul_left'
        (Nat.min_le_left q2.duration_sec (d - c.period_1.duration_sec)) q2.rate
      have e3 := mul_le_mul_left' (Nat.min_le_left q3.duration_sec
        (d - c.period_1.duration_sec - q2.duration_sec)) q3.rate
      have h2' := h.2
      unfold maxRewardPerGemSpec periodOrDefault at h2'
      rw [hp2, hp3] at h2'
      simp only [Option.getD_some] at h2'
      have hR1 : c.period_1.rate * min c.period_1.duration_sec d
          + q2.rate * min q2.duration_sec (d - c.period_1.duration_sec)
          < U64_LIMIT := by omega
      have hR2 : c.period_1.rate * min c.period_1.duration_sec d
          + q2.rate * min q2.duration_sec (d - c.period_1.duration_sec)
          + q3.rate * min q3.duration_sec (d - c.period_1.duration_sec - q2.duration_sec)
          < U64_LIMIT := by omega
      have hcond : min c.period_1.duration_sec d
          + min q2.duration_sec (d - c.period_1.duration_sec)
          + min q3.duration_sec (d - c.period_1.duration_sec - q2.duration_sec)
          ≤ maxDurationSpec c := by
        unfold maxDurationSpec periodOrDefault
        rw [hp2, hp3]
        simp only [Option.getD_some]
        omega
      have hcond2 : c.period_1.rate * min c.period_1.duration_sec d
          + q2.rate * min q2.duration_sec (d - c.period_1.duration_sec)
          + q3.rate * min q3.duration_sec (d - c.period_1.duration_sec - q2.duration_sec)
          ≤ maxRewardPerGemSpec c := by
        unfold maxRewardPerGemSpec periodOrDefault
        rw [hp2, hp3]
        simp only [Option.getD_some]
        omega
      simp only [hp2, hp3, Option.getD_some]
      simp only [FixedRateConfig.accrued_reward_per_gem, hp2, hp3,
        try_mul_ok hm1, onOk_ok,
        try_sub_ok (Nat.min_le_right c.period_1.duration_sec d), sub_min_self,
        try_mul_ok hm2,
        try_sub_ok (Nat.min_le_right q2.duration_sec (d - c.period_1.duration_sec)),
        try_mul_ok hm3,
        try_add_ok hA1, try_add_ok hA2, try_add_ok hR1, try_add_ok hR2,
        max_duration_eq c h, max_reward_per_gem_eq c h, hcond, hcond2, if_true]

/-! ## Inversion lemmas for the checked arithmetic -/

theorem try_add_inv {a b v : Nat} (h : try_add a b = .ok v) :
    a + b < U64_LIMIT ∧ v = a + b := by
  unfold try_add at h
  split at h <;> simp_all

theorem try_sub_inv {a b v : Nat} (h : try_sub a b = .ok v) :
    b ≤ a ∧ v = a - b := by
  unfold try_sub at h
  split at h <;> simp_all

theorem try_mul_inv {a b v : Nat} (h : try_mul a b = .ok v) :
    a * b < U64_LIMIT ∧ v = a * b := by
  unfold try_mul at h
  split at h <;> simp_all

/-- Inverting a successful `pending_amount`: both checked subtractions
went through, and the pending amount is what is funded but neither
refunded nor accrued. -/
theorem pending_amount_inv (f : FundsTracker) (p : Nat)
    (h : f.pending_amount = .ok p) :
    f.total_refunded ≤ f.total_funded
    ∧ f.total_accrued_to_stakers ≤ f.total_funded - f.total_refunded
    ∧ p = f.total_funded - f.total_refunded - f.total_accrued_to_stakers := by
  by_cases h1 : f.total_refunded ≤ f.total_funded
  · by_cases h2 : f.total_accrued_to_stakers ≤ f.total_funded - f.total_refunded
    · simp only [FundsTracker.pending_amount, try_sub, if_pos h1, onOk_ok,
        if_pos h2] at h
      simp only [Except.ok.injEq] at h
      exact ⟨h1, h2, h.symm⟩
    · simp [FundsTracker.pending_amount, try_sub, if_pos h1, onOk_ok, if_neg h2] at h
  · simp [FundsTracker.pending_amount, try_sub, if_neg h1, onOk_error] at h

/-! ## Properties of the piecewise accrual formula -/

theorem accruedSpec_mono (c : FixedRateConfig) {d1 d2 : Nat} (h : d1 ≤ d2) :
    accruedRewardPerGemSpec c d1 ≤ accruedRewardPerGemSpec c d2 := by
  unfold accruedRewardPerGemSpec
  have m1 : min c.period_1.duration_sec d1 ≤ min c.period_1.duration_sec d2 := by omega
  have m2 : min (periodOrDefault c.period_2).duration_sec (d1 - c.period_1.duration_sec)
      ≤ min (periodOrDefault c.period_2).duration_sec (d2 - c.period_1.duration_sec) := by
    omega
  have m3 : min (periodOrDefault c.period_3).duration_sec
        (d1 - c.period_1.duration_sec - (periodOrDefault c.period_2).duration_sec)
      ≤ min (periodOrDefault c.period_3).duration_sec
        (d2 - c.period_1.duration_sec - (periodOrDefault c.period_2).duration_sec) := by
    omega
  exact add_le_add (add_le_add (mul_le_mul_left' m1 _) (mul_le_mul_left' m2 _))
    (mul_le_mul_left' m3 _)

theorem accruedSpec_le_max (c : FixedRateConfig) (d : Nat) :
    accruedRewardPerGemSpec c d ≤ maxRewardPerGemSpec c := by
  unfold accruedRewardPerGemSpec maxRewardPerGemSpec
  exact add_le_add
    (add_le_add (mul_le_mul_left' (Nat.min_le_left _ _) _)
      (mul_le_mul_left' (Nat.min_le_left _ _) _))
    (mul_le_mul_left' (Nat.min_le_left _ _) _)

theorem accruedSpec_saturates (c : FixedRateConfig) {d : Nat}
    (h : maxDurationSpec c ≤ d) :
    accruedRewardPerGemSpec c d = maxRewardPerGemSpec c := by
  unfold maxDurationSpec at h
  show accruedRewardPerGemSpec c d = maxRewardPerGemSpec c
  simp only [accruedRewardPerGemSpec, maxRewardPerGemSpec]
  rw [show min c.period_1.duration_sec d = c.period_1.duration_sec by omega,
    show min (periodOrDefault c.period_2).duration_sec (d - c.period_1.duration_sec)
      = (periodOrDefault c.period_2).duration_sec by omega,
    show min (periodOrDefault c.period_3).duration_sec
        (d - c.period_1.duration_sec - (periodOrDefault c.period_2).duration_sec)
      = (periodOrDefault c.period_3).duration_sec by omega]

/-- Closed form of `remaining_reward_per_gem`: for a valid config the
defensive underflow is unreachable and the result is max minus accrued. -/
theorem remaining_reward_per_gem_eq (c : FixedRateConfig) (d : Nat) (h : ValidConfig c) :
    c.remaining_reward_per_gem d
      = .ok (maxRewardPerGemSpec c - accruedRewardPerGemSpec c d) := by
  simp only [FixedRateConfig.remaining_reward_per_gem, max_reward_per_gem_eq c h,
    accrued_reward_per_gem_eq c d h, onOk_ok, try_sub_ok (accruedSpec_le_max c d)]

/-! ## Claims -/

/-- C3: for every valid config and every elapsed time,
`accrued_reward_per_gem` equals the spec's piecewise integral, time
beyond the configured durations contributes nothing (the result
saturates at the max reward per gem), and on the three-period test
config it returns 6 at 2, 17 at 5, 35 at 9 and 50 at 100, with max
duration 12 and max reward per gem 50. -/
theorem claim_C3 (c : FixedRateConfig) (d : Nat) (h : ValidConfig c) :
    c.accrued_reward_per_gem d = .ok (accruedRewardPerGemSpec c d)
    ∧ (maxDurationSpec c ≤ d →
        c.accrued_reward_per_gem d = .ok (maxRewardPerGemSpec c))
    ∧ testConfig.accrued_reward_per_gem 2 = .ok 6
    ∧ testConfig.accrued_reward_per_gem 5 = .ok 17
    ∧ testConfig.accrued_reward_per_gem 9 = .ok 35
    ∧ testConfig.accrued_reward_per_gem 100 = .ok 50
    ∧ testConfig.max_duration = .ok 12
    ∧ testConfig.max_reward_per_gem = .ok 50 := by
  refine ⟨accrued_reward_per_gem_eq c d h, ?_, rfl, rfl, rfl, rfl, rfl, rfl⟩
  intro hd
  rw [accrued_reward_per_gem_eq c d h, accruedSpec_saturates c hd]

theorem claim_C3_witness :
    testConfig.accrued_reward_per_gem 5
      = .ok (accruedRewardPerGemSpec testConfig 5) :=
  (claim_C3 testConfig 5 (by decide)).1

/-- C6: for every valid config, `accrued_reward_per_gem` is monotone
non-decreasing on `[0, maxDuration]`. -/
theorem claim_C6 (c : FixedRateConfig) (d1 d2 m : Nat) (h : ValidConfig c)
    (hm : c.max_duration = .ok m) (h12 : d1 ≤ d2) (h2m : d2 ≤ m) :
    ∃ a1 a2, c.accrued_reward_per_gem d1 = .ok a1
      ∧ c.accrued_reward_per_gem d2 = .ok a2 ∧ a1 ≤ a2 :=
  ⟨accruedRewardPerGemSpec c d1, accruedRewardPerGemSpec c d2,
    accrued_reward_per_gem_eq c d1 h, accrued_reward_per_gem_eq c d2 h,
    accruedSpec_mono c h12⟩

theorem claim_C6_witness :
    ∃ a1 a2, testConfig.accrued_reward_per_gem 5 = .ok a1
      ∧ testConfig.accrued_reward_per_gem 9 = .ok a2 ∧ a1 ≤ a2 :=
  claim_C6 testConfig 5 9 12 (by decide) rfl (by decide) (by decide)

/-- C7: for every valid config, `remaining_reward_per_gem d` succeeds and
equals max minus accrued (so the defensive underflow is unreachable:
accrued never exceeds max), and is 0 whenever `d ≥ maxDuration`. -/
theorem claim_C7 (c : FixedRateConfig) (d m maxr : Nat) (h : ValidConfig c)
    (hmd : c.max_duration = .ok m) (hmr : c.max_reward_per_gem = .ok maxr) :
    (∃ a, c.accrued_reward_per_gem d = .ok a ∧ a ≤ maxr
      ∧ c.remaining_reward_per_gem d = .ok (maxr - a))
    ∧ (m ≤ d → c.remaining_reward_per_gem d = .ok 0) := by
  rw [max_reward_per_gem_eq c h] at hmr
  rw [max_duration_eq c h] at hmd
  obtain rfl : maxRewardPerGemSpec c = maxr := Except.ok.inj hmr
  obtain rfl : maxDurationSpec c = m := Except.ok.inj hmd
  constructor
  · exact ⟨accruedRewardPerGemSpec c d, accrued_reward_per_gem_eq c d h,
      accruedSpec_le_max c d, remaining_reward_per_gem_eq c d h⟩
  · intro hle
    rw [remaining_reward_per_gem_eq c d h, accruedSpec_saturates c hle,
      Nat.sub_self]

theorem claim_C7_witness :
    (∃ a, testConfig.accrued_reward_per_gem 5 = .ok a ∧ a ≤ 50
      ∧ testConfig.remaining_reward_per_gem 5 = .ok (50 - a))
    ∧ (12 ≤ 5 → testConfig.remaining_reward_per_gem 5 = .ok 0) :=
  claim_C7 testConfig 5 12 50 (by decide) rfl rfl

/-- C8: whenever the component calls succeed, `required_funding` is
`max_reward_per_gem * gems_funded` and `remaining_required_funding d` is
`remaining_reward_per_gem d * gems_funded` — both use the `gems_funded`
snapshot stored on the config. -/
theorem claim_C8 (c : FixedRateConfig) (d maxr r : Nat)
    (hmr : c.max_reward_per_gem = .ok maxr)
    (hrr : c.remaining_reward_per_gem d = .ok r)
    (h1 : maxr * c.gems_funded < U64_LIMIT)
    (h2 : r * c.gems_funded < U64_LIMIT) :
    c.required_funding = .ok (maxr * c.gems_funded)
    ∧ c.remaining_required_funding d = .ok (r * c.gems_funded) := by
  constructor
  · simp only [FixedRateConfig.required_funding, hmr, onOk_ok, try_mul_ok h1]
  · simp only [FixedRateConfig.remaining_required_funding, hrr, onOk_ok,
      try_mul_ok h2]

theorem claim_C8_witness :
    testConfig.required_funding = .ok (50 * testConfig.gems_funded)
    ∧ testConfig.remaining_required_funding 2 = .ok (44 * testConfig.gems_funded) :=
  claim_C8 testConfig 2 50 44 rfl rfl (by decide) (by decide)

/-- C5: `lock_reward` fails with the underfunded error iff the pending
amount is below the remaining required funding for the passed duration;
on success the only change is `lock_end_ts := reward_end_ts`. -/
theorem claim_C5 (self : FixedRateReward) (now_ts : Nat) (times : TimeTracker)
    (funds : FundsTracker) (passed pending required : Nat)
    (hp : times.passed_duration now_ts = .ok passed)
    (hf : funds.pending_amount = .ok pending)
    (hr : self.config.remaining_required_funding passed = .ok required) :
    ((self.lock_reward now_ts times funds).1 = .error .rewardUnderfunded
      ↔ pending < required)
    ∧ (required ≤ pending →
        self.lock_reward now_ts times funds
          = (.ok (), { times with lock_end_ts := times.reward_end_ts }, funds)) := by
  simp only [FixedRateReward.lock_reward, hp, hf, hr, onOk_ok]
  by_cases hlt : pending < required
  · rw [if_pos hlt]
    exact ⟨⟨fun _ => hlt, fun _ => rfl⟩, fun hge => absurd hlt (by omega)⟩
  · rw [if_neg hlt]
    exact ⟨⟨fun hcontra => absurd hcontra (by simp), fun h2 => absurd h2 hlt⟩,
      fun _ => rfl⟩

theorem claim_C5_witness :
    ((FixedRateReward.lock_reward ⟨testConfig, 0, 0⟩ 3 ⟨12, 12, 0⟩ ⟨5000, 0, 0⟩).1
      = .error .rewardUnderfunded ↔ (5000 : Nat) < 4100)
    ∧ ((4100 : Nat) ≤ 5000 →
        FixedRateReward.lock_reward ⟨testConfig, 0, 0⟩ 3 ⟨12, 12, 0⟩ ⟨5000, 0, 0⟩
          = (.ok (), ⟨12, 12, 12⟩, ⟨5000, 0, 0⟩)) :=
  claim_C5 ⟨testConfig, 0, 0⟩ 3 ⟨12, 12, 0⟩ ⟨5000, 0, 0⟩ 3 5000 4100 rfl rfl rfl

/-- C2: `cancel_reward` fails with `notAllGemsWhole` iff fewer gems are
whole than participating; when the counts are equal (and the funds
ledger is consistent) it truncates the window via `end_reward`,
increments `total_refunded` by exactly the pending amount, and returns
that amount. -/
theorem claim_C2 (self : FixedRateReward) (now_ts : Nat) (times : TimeTracker)
    (funds : FundsTracker) (pending : Nat)
    (hf : funds.pending_amount = .ok pending)
    (hw : funds.total_funded < U64_LIMIT) :
    ((self.cancel_reward now_ts times funds).1 = .error .notAllGemsWhole
      ↔ self.gems_made_whole < self.gems_participating)
    ∧ (self.gems_made_whole = self.gems_participating →
        ∃ times1, times.end_reward now_ts = .ok times1
          ∧ self.cancel_reward now_ts times funds
            = (.ok pending, self, times1,
               { funds with total_refunded := funds.total_refunded + pending })) := by
  obtain ⟨h1, h2, h3⟩ := pending_amount_inv funds pending hf
  have hb : funds.total_refunded + pending < U64_LIMIT := by omega
  by_cases hlt : self.gems_made_whole < self.gems_participating
  · constructor
    · simp [FixedRateReward.cancel_reward, hlt]
    · intro he; exact absurd he (by omega)
  · have hres : self.cancel_reward now_ts times funds
        = (.ok pending, self,
           (if now_ts < times.reward_end_ts then
             { times with
                duration_sec := times.duration_sec - (times.reward_end_ts - now_ts),
                reward_end_ts := now_ts }
            else times),
           { funds with total_refunded := funds.total_refunded + pending }) := by
      simp only [FixedRateReward.cancel_reward, if_neg hlt, TimeTracker.end_reward,
        onOk_ok, hf, try_add_ok hb]
    constructor
    · rw [hres]; simp [hlt]
    · intro _
      exact ⟨_, rfl, hres⟩

theorem claim_C2_witness :
    ((FixedRateReward.cancel_reward ⟨testConfig, 2, 2⟩ 5 ⟨10, 8, 0⟩ ⟨100, 10, 20⟩).1
      = .error .notAllGemsWhole ↔ (2 : Nat) < 2)
    ∧ ((2 : Nat) = 2 →
        ∃ times1, TimeTracker.end_reward ⟨10, 8, 0⟩ 5 = .ok times1
          ∧ FixedRateReward.cancel_reward ⟨testConfig, 2, 2⟩ 5 ⟨10, 8, 0⟩ ⟨100, 10, 20⟩
            = (.ok 70, ⟨testConfig, 2, 2⟩, times1,
               { total_funded := 100, total_refunded := 10 + 70,
                 total_accrued_to_stakers := 20 })) :=
  claim_C2 ⟨testConfig, 2, 2⟩ 5 ⟨10, 8, 0⟩ ⟨100, 10, 20⟩ 70 rfl (by decide)

/-- C9: when the participant record is already marked whole,
`update_accrued_reward` succeeds and leaves the aggregate, the funds
ledger and the participant record completely unchanged. -/
theorem claim_C9 (self : FixedRateReward) (now_ts : Nat) (funds : FundsTracker)
    (times : TimeTracker) (gems begin_ts : Nat) (fr : FarmerReward)
    (hw : fr.fixed_rate.is_whole = true) :
    self.update_accrued_reward now_ts funds times gems begin_ts fr
      = (.ok (), self, funds, fr) := by
  simp [FixedRateReward.update_accrued_reward, hw]

theorem claim_C9_witness :
    FixedRateReward.update_accrued_reward ⟨testConfig, 1, 1⟩ 7 ⟨9, 9, 9⟩ ⟨3, 3, 3⟩ 4 5
        ⟨6, ⟨2, true⟩⟩
      = (.ok (), ⟨testConfig, 1, 1⟩, ⟨9, 9, 9⟩, ⟨6, ⟨2, true⟩⟩) :=
  claim_C9 ⟨testConfig, 1, 1⟩ 7 ⟨9, 9, 9⟩ ⟨3, 3, 3⟩ 4 5 ⟨6, ⟨2, true⟩⟩ rfl

/-- C1: code-bug evidence — `fund_reward` records `max_duration()` (here
3) as the funding amount instead of the schedule's total reward
obligation (`required_funding()` = 900): `total_funded` rises by 3, not
by 900, while everything else behaves as described. -/
theorem claim_C1_bug :
    singlePeriodConfig.max_duration = .ok 3
    ∧ singlePeriodConfig.required_funding = .ok 900
    ∧ FixedRateReward.fund_reward ⟨singlePeriodConfig, 0, 0⟩ 1000 ⟨0, 0, 0⟩ ⟨0, 0, 0⟩
        singlePeriodConfig
      = (.ok (), ⟨singlePeriodConfig, 0, 0⟩, ⟨3, 1003, 0⟩, ⟨3, 0, 0⟩) :=
  ⟨rfl, rfl, rfl⟩

/-- C4 counterexample: at this concrete input `update_accrued_reward`
fails with an overflow on the lifetime-total increment, yet the earlier
increment of `accrued_this_staking_cycle` (0 → 3) is left behind in the
returned participant record — an error does not roll back the partial
mutation. -/
theorem claim_C4_counterexample :
    FixedRateReward.update_accrued_reward ⟨smallConfig, 1, 0⟩ 15 ⟨1000, 0, 0⟩
        ⟨10, 20, 0⟩ 1 12 nearMaxFarmer
      = (.error .arithmeticOverflow, ⟨smallConfig, 1, 0⟩, ⟨1000, 0, 0⟩,
         { accrued_reward := 2 ^ 64 - 1,
           fixed_rate := { accrued_this_staking_cycle := 3, whole := false } })
    ∧ nearMaxFarmer.fixed_rate.accrued_this_staking_cycle = 0 :=
  ⟨rfl, rfl⟩

/-- C4 (amended): `lock_reward` is atomic — on every error it returns the
time window and the funds ledger exactly unchanged (and it never writes
the aggregate or a participant record at all); the other operations only
guarantee this for errors raised before their first write. -/
theorem claim_C4_amended (self : FixedRateReward) (now_ts : Nat)
    (times : TimeTracker) (funds : FundsTracker) (e : ErrorCode)
    (h : (self.lock_reward now_ts times funds).1 = .error e) :
    self.lock_reward now_ts times funds = (.error e, times, funds) := by
  cases hp : funds.pending_amount with
  | error e2 =>
    simp only [FixedRateReward.lock_reward, TimeTracker.passed_duration, onOk_ok,
      hp, onOk_error, Except.error.injEq] at h ⊢
    rw [h]
  | ok pending =>
    cases hr : self.config.remaining_required_funding
        (times.duration_sec - (times.reward_end_ts - now_ts)) with
    | error e2 =>
      simp only [FixedRateReward.lock_reward, TimeTracker.passed_duration, onOk_ok,
        hp, hr, onOk_error, Except.error.injEq] at h ⊢
      rw [h]
    | ok required =>
      by_cases hlt : pending < required
      · simp only [FixedRateReward.lock_reward, TimeTracker.passed_duration, onOk_ok,
          hp, hr, if_pos hlt, Except.error.injEq] at h ⊢
        rw [h]
      · simp only [FixedRateReward.lock_reward, TimeTracker.passed_duration, onOk_ok,
          hp, hr, if_neg hlt] at h
        exact Except.noConfusion h

theorem claim_C4_amended_witness :
    FixedRateReward.lock_reward ⟨testConfig, 0, 0⟩ 0 ⟨0, 0, 0⟩ ⟨0, 5, 0⟩
      = (.error .arithmeticUnderflow, ⟨0, 0, 0⟩, ⟨0, 5, 0⟩) :=
  claim_C4_amended ⟨testConfig, 0, 0⟩ 0 ⟨0, 0, 0⟩ ⟨0, 5, 0⟩ .arithmeticUnderflow rfl

/-- C10: a successful `update_accrued_reward` that passes the whole and
begin-staking guards applies a single delta — the recomputed cycle total
`accrued_reward_per_gem(stakingDuration) * gemsStaked` minus what was
already credited (the call errors if the recomputed total is below the
credit, so the delta is non-negative) — to the cycle tracker, the
lifetime total and the farm total alike, so none of the three decreases. -/
theorem claim_C10 (self self' : FixedRateReward) (now_ts : Nat)
    (funds funds' : FundsTracker) (times : TimeTracker)
    (gems begin_ts : Nat) (fr fr' : FarmerReward)
    (hw : fr.fixed_rate.is_whole = false)
    (hb : begin_ts ≤ times.reward_upper_bound now_ts)
    (hres : self.update_accrued_reward now_ts funds times gems begin_ts fr
      = (.ok (), self', funds', fr')) :
    ∃ lb sd perGem delta,
      times.reward_lower_bound begin_ts = .ok lb
      ∧ sd = times.reward_upper_bound now_ts - lb
      ∧ self.config.accrued_reward_per_gem sd = .ok perGem
      ∧ fr.fixed_rate.accrued_this_staking_cycle ≤ perGem * gems
      ∧ delta = perGem * gems - fr.fixed_rate.accrued_this_staking_cycle
      ∧ fr'.fixed_rate.accrued_this_staking_cycle
          = fr.fixed_rate.accrued_this_staking_cycle + delta
      ∧ fr'.accrued_reward = fr.accrued_reward + delta
      ∧ funds'.total_accrued_to_stakers = funds.total_accrued_to_stakers + delta := by
  have hb2 : ¬ begin_ts > times.reward_upper_bound now_ts := not_lt.mpr hb
  simp only [FixedRateReward.update_accrued_reward, hw, Bool.false_eq_true, if_false,
    hb2, TimeTracker.reward_lower_bound, onOk_ok] at hres
  cases hsd : try_sub (times.reward_upper_bound now_ts)
      (max (times.reward_end_ts - times.duration_sec) begin_ts) with
  | error e => simp [hsd, onOk_error] at hres
  | ok sd =>
  simp only [hsd, onOk_ok] at hres
  cases hpg : self.config.accrued_reward_per_gem sd with
  | error e => simp [hpg, onOk_error] at hres
  | ok perGem =>
  simp only [hpg, onOk_ok] at hres
  cases hct : try_mul perGem gems with
  | error e => simp [hct, onOk_error] at hres
  | ok cycle_total =>
  simp only [hct, onOk_ok] at hres
  cases hnw : try_sub cycle_total fr.fixed_rate.accrued_this_staking_cycle with
  | error e => simp [hnw, onOk_error] at hres
  | ok delta =>
  simp only [hnw, onOk_ok] at hres
  cases hc1 : try_add fr.fixed_rate.accrued_this_staking_cycle delta with
  | error e => simp [hc1, onOk_error] at hres
  | ok c1 =>
  simp only [hc1, onOk_ok] at hres
  cases ha1 : try_add fr.accrued_reward delta with
  | error e => simp [ha1, onOk_error] at hres
  | ok a1 =>
  simp only [ha1, onOk_ok] at hres
  cases ht1 : try_add funds.total_accrued_to_stakers delta with
  | error e => simp [ht1, onOk_error] at hres
  | ok t1 =>
  simp only [ht1, onOk_ok] at hres
  obtain ⟨hmul_lt, hmul⟩ := try_mul_inv hct
  obtain ⟨hle, hdelta⟩ := try_sub_inv hnw
  obtain ⟨-, hc1v⟩ := try_add_inv hc1
  obtain ⟨-, ha1v⟩ := try_add_inv ha1
  obtain ⟨-, ht1v⟩ := try_add_inv ht1
  obtain ⟨hsd_le, hsdv⟩ := try_sub_inv hsd
  by_cases hend : now_ts > times.reward_end_ts
  · rw [if_pos hend] at hres
    cases hgw : try_add self.gems_made_whole gems with
    | error e =>
      rw [hgw, onOk_error] at hres
      exact absurd hres (by simp)
    | ok gw =>
      rw [hgw, onOk_ok] at hres
      have e1 := congrArg (fun p => p.2.2.2.fixed_rate.accrued_this_staking_cycle) hres
      have e2 := congrArg (fun p => p.2.2.2.accrued_reward) hres
      have e3 := congrArg (fun p => p.2.2.1.total_accrued_to_stakers) hres
      simp only [FarmerFixedRateReward.mark_whole] at e1 e2 e3
      exact ⟨max (times.reward_end_ts - times.duration_sec) begin_ts, sd, perGem,
        delta, rfl, hsdv, hpg, by omega, by omega, by omega, by omega, by omega⟩
  · rw [if_neg hend] at hres
    have e1 := congrArg (fun p => p.2.2.2.fixed_rate.accrued_this_staking_cycle) hres
    have e2 := congrArg (fun p => p.2.2.2.accrued_reward) hres
    have e3 := congrArg (fun p => p.2.2.1.total_accrued_to_stakers) hres
    simp only [FarmerFixedRateReward.mark_whole] at e1 e2 e3
    exact ⟨max (times.reward_end_ts - times.duration_sec) begin_ts, sd, perGem,
      delta, rfl, hsdv, hpg, by omega, by omega, by omega, by omega, by omega⟩

theorem claim_C10_witness :
    ∃ lb sd perGem delta,
      TimeTracker.reward_lower_bound ⟨10, 20, 0⟩ 12 = .ok lb
      ∧ sd = TimeTracker.reward_upper_bound ⟨10, 20, 0⟩ 15 - lb
      ∧ smallConfig.accrued_reward_per_gem sd = .ok perGem
      ∧ 0 ≤ perGem * 1
      ∧ delta = perGem * 1 - 0
      ∧ (3 : Nat) = 0 + delta
      ∧ (3 : Nat) = 0 + delta
      ∧ (3 : Nat) = 0 + delta :=
  claim_C10 ⟨smallConfig, 1, 0⟩ ⟨smallConfig, 1, 0⟩ 15 ⟨1000, 0, 0⟩ ⟨1000, 0, 3⟩
    ⟨10, 20, 0⟩ 1 12 ⟨0, ⟨0, false⟩⟩ ⟨3, ⟨3, false⟩⟩ rfl (by decide) rfl
